import Mathlib

/-
Verification development for the WebP-to-JPEG/PDF converter.

The definitions below are a shallow embedding of the TypeScript source:
  - `ConversionStatus`, `FileItem` mirror `types.ts`;
  - `updateStatus`, `handleFilesAdded`, `handleRemoveFile`, the JPEG batch
    scheduler and the PDF run mirror `App.tsx`;
  - `zipAndDownload` / the entry-name derivation mirror
    `services/imageService.ts`;
  - `generatePdf` (page loop, margin/orientation geometry, fit-inside-box)
    mirrors `services/pdfService.ts`.
Host primitives (image decoding, the PDF/zip container) are modelled as
parameters (a `raster` oracle, abstract `Blob` tokens); registry mutations
that in the source go through `setFiles` become pure list transformations;
scheduler concurrency becomes an explicit event trace.
-/

namespace WebpToJpeg

/-- Mirrors `enum ConversionStatus` in `types.ts`. -/
inductive ConversionStatus where
  | IDLE
  | CONVERTING
  | COMPLETED
  | ERROR
deriving DecidableEq, Repr

/-- Abstract token for a browser `Blob` (the encoded bytes themselves are opaque). -/
abbrev Blob := Nat

/-- Mirrors the browser `File` handle: only the `name` matters to the core logic. -/
structure JsFile where
  name : List Char
deriving DecidableEq, Repr

/-- Mirrors `interface FileItem` in `types.ts`.  The optional fields
`convertedBlob` and `error` are `Option`s; `none` means the key is absent. -/
structure FileItem where
  id : String
  file : JsFile
  previewUrl : String
  status : ConversionStatus
  convertedBlob : Option Blob
  error : Option String
deriving DecidableEq, Repr

/-- The `extra : Partial<FileItem>` argument of `updateStatus` in `App.tsx`.
A field is `some v` exactly when the caller's object literal names that key. -/
structure FilePatch where
  convertedBlob : Option Blob
  error : Option String
deriving DecidableEq, Repr

/-- The empty patch `{}`. -/
def emptyPatch : FilePatch := { convertedBlob := none, error := none }

/-- JavaScript spread semantics of `{ ...f, status, ...extra }`: keys named in
`extra` overwrite, all other keys keep the value from `f`. -/
def applyPatch (f : FileItem) (st : ConversionStatus) (p : FilePatch) : FileItem :=
  { id := f.id
    file := f.file
    previewUrl := f.previewUrl
    status := st
    convertedBlob := match p.convertedBlob with
      | some b => some b
      | none => f.convertedBlob
    error := match p.error with
      | some e => some e
      | none => f.error }

/-- Mirrors `updateStatus` in `App.tsx`:
`setFiles(prev => prev.map(f => f.id === id ? \x7b ...f, status, ...extra \x7d : f))`. -/
def updateStatus (files : List FileItem) (id : String) (st : ConversionStatus)
    (p : FilePatch) : List FileItem :=
  files.map (fun f => if f.id = id then applyPatch f st p else f)

/-- A freshly ingested item (`handleFilesAdded` in `App.tsx`): status `IDLE`,
no converted blob, no error; `id` and `previewUrl` are host-assigned. -/
def mkItem (id : String) (file : JsFile) (url : String) : FileItem :=
  { id := id, file := file, previewUrl := url, status := ConversionStatus.IDLE
    convertedBlob := none, error := none }

/-- Mirrors `handleFilesAdded`: append one fresh item per accepted source. -/
def handleFilesAdded (files : List FileItem)
    (news : List (String × JsFile × String)) : List FileItem :=
  files ++ news.map (fun n => mkItem n.1 n.2.1 n.2.2)

/-- Mirrors `handleRemoveFile` in `App.tsx`.  First component: the new
collection (`prev.filter(f => f.id !== id)`); second component: the list of
preview URLs passed to `URL.revokeObjectURL` (one per `find?` hit). -/
def handleRemoveFile (files : List FileItem) (id : String) :
    List FileItem × List String :=
  (files.filter (fun f => !(f.id == id)),
   match files.find? (fun f => f.id == id) with
   | some f => [f.previewUrl]
   | none => [])

/-- The section-3 invariant of the spec: `output` present exactly when
`Completed`, `error` present exactly when `Error`, both absent otherwise. -/
def statusFieldInvariant (f : FileItem) : Prop :=
  (f.status = ConversionStatus.COMPLETED → f.convertedBlob.isSome ∧ f.error = none) ∧
  (f.status = ConversionStatus.ERROR → f.error.isSome ∧ f.convertedBlob = none) ∧
  (f.status = ConversionStatus.IDLE ∨ f.status = ConversionStatus.CONVERTING →
    f.convertedBlob = none ∧ f.error = none)

/-- Mirrors the `pendingFiles` selection in `startConversion`:
`files.filter(f => f.status === IDLE || f.status === ERROR)`. -/
def selectPending (files : List FileItem) : List FileItem :=
  files.filter (fun f =>
    f.status == ConversionStatus.IDLE || f.status == ConversionStatus.ERROR)

/-- Mirrors the `for (i = 0; i < n; i += BATCH_SIZE) slice(i, i + 3)` loop of
`startJpegConversion` with `BATCH_SIZE = 3`: successive chunks of at most 3,
in original order. -/
def batches3 {α : Type} : List α → List (List α)
  | [] => []
  | [a] => [[a]]
  | [a, b] => [[a, b]]
  | a :: b :: c :: rest => [a, b, c] :: batches3 rest

/-- Observable events of one JPEG batch run: `mark` is the
`updateStatus(id, CONVERTING)` issued before dispatch, `dispatch` is the call
to `convertWebPToJpeg`, `settle` is the `updateStatus` issued when the
item's promise resolves or rejects. -/
inductive SchedEvent where
  | mark (id : String)
  | dispatch (id : String)
  | settle (id : String) (st : ConversionStatus)
deriving DecidableEq, Repr

/-- The status an item settles with: `COMPLETED` when `convertWebPToJpeg`
resolves, `ERROR` when it rejects (`out` is the host conversion oracle). -/
def outcomeStatus (out : FileItem → Bool) (f : FileItem) : ConversionStatus :=
  if out f then ConversionStatus.COMPLETED else ConversionStatus.ERROR

/-- Event trace of one `Promise.all(batch.map(...))` group.  The async
callbacks start synchronously in batch order (each marks then dispatches);
the settles land in some host-determined order `σ g` (a permutation of the
group) after every dispatch, and `Promise.all` is awaited before the next
group. -/
def groupTrace (out : FileItem → Bool) (σ : List FileItem → List FileItem)
    (g : List FileItem) : List SchedEvent :=
  g.flatMap (fun f => [SchedEvent.mark f.id, SchedEvent.dispatch f.id])
    ++ (σ g).map (fun f => SchedEvent.settle f.id (outcomeStatus out f))

/-- Mirrors `startJpegConversion(pendingFiles)`: groups of three processed
one after the other. -/
def startJpegConversion (out : FileItem → Bool) (σ : List FileItem → List FileItem)
    (pendingFiles : List FileItem) : List SchedEvent :=
  (batches3 pendingFiles).flatMap (groupTrace out σ)

/-- Mirrors `startConversion` in JPEG mode: filter the pending items, then
run the batch loop on them. -/
def startConversion (out : FileItem → Bool) (σ : List FileItem → List FileItem)
    (files : List FileItem) : List SchedEvent :=
  startJpegConversion out σ (selectPending files)

/-- Mirrors `PdfMargin` in `types.ts`. -/
inductive PdfMargin where
  | none
  | small
  | big
deriving DecidableEq, Repr

/-- Mirrors `PdfOrientation` in `types.ts`. -/
inductive PdfOrientation where
  | portrait
  | landscape
deriving DecidableEq, Repr

/-- Mirrors `interface PdfOptions`. -/
structure PdfOptions where
  margin : PdfMargin
  orientation : PdfOrientation
deriving DecidableEq, Repr

/-- Mirrors `MARGIN_SIZES` in `pdfService.ts` (millimetres). -/
def MARGIN_SIZES : PdfMargin → ℚ
  | PdfMargin.none => 0
  | PdfMargin.small => 10
  | PdfMargin.big => 25

/-- Mirrors `PAGE_SIZE.a4.width` (mm). -/
def a4Width : ℚ := 210

/-- Mirrors `PAGE_SIZE.a4.height` (mm). -/
def a4Height : ℚ := 297

/-- Mirrors `pageWidth = orientation === 'portrait' ? a4.width : a4.height`. -/
def pageWidth (o : PdfOrientation) : ℚ :=
  if o = PdfOrientation.portrait then a4Width else a4Height

/-- Mirrors `pageHeight = orientation === 'portrait' ? a4.height : a4.width`. -/
def pageHeight (o : PdfOrientation) : ℚ :=
  if o = PdfOrientation.portrait then a4Height else a4Width

/-- Mirrors `contentWidth = pageWidth - marginSize * 2`. -/
def contentWidth (opts : PdfOptions) : ℚ :=
  pageWidth opts.orientation - MARGIN_SIZES opts.margin * 2

/-- Mirrors `contentHeight = pageHeight - marginSize * 2`. -/
def contentHeight (opts : PdfOptions) : ℚ :=
  pageHeight opts.orientation - MARGIN_SIZES opts.margin * 2

/-- Mirrors the fit computation in `generatePdf`:
`finalWidth = contentWidth; finalHeight = contentWidth / imgRatio;`
`if (finalHeight > contentHeight) \x7b finalHeight = contentHeight; finalWidth = contentHeight * imgRatio \x7d`. -/
def fitDims (w h cw ch : ℚ) : ℚ × ℚ :=
  let imgRatio := w / h
  let finalHeight := cw / imgRatio
  if finalHeight > ch then (ch * imgRatio, ch) else (cw, finalHeight)

/-- Mirrors the centring `marginSize + (contentDim - finalDim) / 2`. -/
def placeOffset (m content fit : ℚ) : ℚ := m + (content - fit) / 2

/-- Observable events of one `generatePdf` run against the jsPDF document:
`progress i` is the `onProgress(i)` callback, `addPage` is `doc.addPage()`,
`placeImage` is `doc.addImage(..., x, y, w, h)`, `placeText` is
`doc.text(msg, x, y)`. -/
inductive PdfEvent where
  | progress (i : Nat)
  | addPage
  | placeImage (x y w h : ℚ)
  | placeText (msg : List Char) (x y : ℚ)
deriving DecidableEq, Repr

/-- The template literal `Error loading image: $\x7bfiles[i].name\x7d`. -/
def errText (name : List Char) : List Char :=
  "Error loading image: ".toList ++ name

/-- Body of one page of the `generatePdf` loop: on successful rasterization
(`raster f = some (width, height)` from `getImageData`) place the fitted,
centred image; on failure place the error text at (10, 10). -/
def pageBody (opts : PdfOptions) (raster : JsFile → Option (ℚ × ℚ))
    (f : JsFile) : List PdfEvent :=
  match raster f with
  | some wh =>
      let fit := fitDims wh.1 wh.2 (contentWidth opts) (contentHeight opts)
      [PdfEvent.placeImage
        (placeOffset (MARGIN_SIZES opts.margin) (contentWidth opts) fit.1)
        (placeOffset (MARGIN_SIZES opts.margin) (contentHeight opts) fit.2)
        fit.1 fit.2]
  | none => [PdfEvent.placeText (errText f.name) 10 10]

/-- Mirrors the `for (let i = 0; i < files.length; i++)` loop of
`generatePdf`: signal progress, `doc.addPage()` when `i > 0`, then the page
body. -/
def generatePdfLoop (opts : PdfOptions) (raster : JsFile → Option (ℚ × ℚ)) :
    Nat → List JsFile → List PdfEvent
  | _, [] => []
  | i, f :: rest =>
      (PdfEvent.progress i ::
        ((if 0 < i then [PdfEvent.addPage] else []) ++ pageBody opts raster f))
        ++ generatePdfLoop opts raster (i + 1) rest

/-- Mirrors `generatePdf(files, options, onProgress)`; the returned event
list doubles as the finalized document blob (`doc.output('blob')`). -/
def generatePdf (opts : PdfOptions) (raster : JsFile → Option (ℚ × ℚ))
    (files : List JsFile) : List PdfEvent :=
  generatePdfLoop opts raster 0 files

/-- Extracts the index of a progress event (used to state trace properties). -/
def progIdx : PdfEvent → Option Nat
  | PdfEvent.progress i => some i
  | _ => none

/-- App-level state touched by the PDF run: the registry and the `pdfBlob`
slot that `setPdfBlob` writes. -/
structure AppState where
  files : List FileItem
  pdfBlob : Option (List PdfEvent)
deriving DecidableEq, Repr

/-- Mirrors `setFiles(prev => prev.map(f => (\x7b ...f, status: CONVERTING \x7d)))`
at the top of `startPdfConversion`. -/
def resetAllConverting (files : List FileItem) : List FileItem :=
  files.map (fun f => { f with status := ConversionStatus.CONVERTING })

/-- The accumulated effect of the `onProgress` callbacks: for each index in
order, `updateStatus(files[index].id, COMPLETED)` against the current state
(`files0` is the captured `files` array). -/
def markAllCompleted (files0 : List FileItem) (s : List FileItem) : List FileItem :=
  files0.foldl
    (fun acc f => updateStatus acc f.id ConversionStatus.COMPLETED emptyPatch) s

/-- The generic diagnostic of the `catch` branch of `startPdfConversion`. -/
def pdfFailMsg : String := "PDF Generation failed"

/-- Mirrors a `startPdfConversion` run in which `generatePdf` resolves:
reset all statuses, apply every progress callback, store the blob. -/
def startPdfConversionOk (opts : PdfOptions) (raster : JsFile → Option (ℚ × ℚ))
    (s : AppState) : AppState :=
  { files := markAllCompleted s.files (resetAllConverting s.files)
    pdfBlob := some (generatePdf opts raster (s.files.map (fun f => f.file))) }

/-- Mirrors a `startPdfConversion` run in which `generatePdf` rejects after
`k` progress callbacks: the `catch` branch maps every item to `ERROR` with
the generic diagnostic and `setPdfBlob` is never reached. -/
def startPdfConversionFail (s : AppState) (k : Nat) : AppState :=
  { files := (markAllCompleted (s.files.take k) (resetAllConverting s.files)).map
      (fun f => { f with status := ConversionStatus.ERROR, error := some pdfFailMsg })
    pdfBlob := s.pdfBlob }

/-- Character class `[^/.]` of the extension regex in `imageService.ts`. -/
def extChar (c : Char) : Bool := !(c == '.') && !(c == '/')

/-- Mirrors `file.name.replace(/\.[^/.]+$/, "")`: drop a trailing
dot-plus-extension (one or more characters none of which is `.` or `/`);
leave the name unchanged when no such suffix exists. -/
def replaceExtMatch (name : List Char) : List Char :=
  match name.reverse.dropWhile extChar with
  | c :: pre =>
      if c = '.' ∧ (name.reverse.takeWhile extChar).isEmpty = false then pre.reverse
      else name
  | [] => name

/-- The derived archive entry name: stripped source name plus `.jpg`. -/
def zipEntryName (name : List Char) : List Char :=
  replaceExtMatch name ++ ['.', 'j', 'p', 'g']

/-- Mirrors `zip.file(name, blob)` of JSZip: an existing entry with the same
name is overwritten, otherwise the entry is appended. -/
def zipFileAdd (entries : List (List Char × Blob)) (name : List Char)
    (blob : Blob) : List (List Char × Blob) :=
  if entries.any (fun e => e.1 == name) then
    entries.map (fun e => if e.1 == name then (name, blob) else e)
  else entries ++ [(name, blob)]

/-- Mirrors the entry-building loop of `zipAndDownload`: for each completed
file insert its blob under the derived name. -/
def zipAndDownload (files : List (List Char × Blob)) : List (List Char × Blob) :=
  files.foldl (fun z f => zipFileAdd z (zipEntryName f.1) f.2) []

/-- Concrete seven-item collection (all idle) used to instantiate the
scheduler theorem. -/
def demoFiles7 : List FileItem :=
  [mkItem "f1" { name := ['a', '1'] } "u1",
   mkItem "f2" { name := ['a', '2'] } "u2",
   mkItem "f3" { name := ['a', '3'] } "u3",
   mkItem "f4" { name := ['a', '4'] } "u4",
   mkItem "f5" { name := ['a', '5'] } "u5",
   mkItem "f6" { name := ['a', '6'] } "u6",
   mkItem "f7" { name := ['a', '7'] } "u7"]

/-- An item stuck in the `ERROR` state exactly as the first JPEG pass leaves
it: diagnostic set, no converted blob. -/
def retryItem : FileItem :=
  { id := "r1", file := { name := "a.webp".toList }, previewUrl := "p"
    status := ConversionStatus.ERROR, convertedBlob := none
    error := some "Conversion failed" }

/-- Two-item concrete collection for the frame/removal witnesses. -/
def demoPair : List FileItem :=
  [mkItem "d1" { name := "x.webp".toList } "url1",
   mkItem "d2" { name := "y.webp".toList } "url2"]

/-- Concrete PDF options: no margin, portrait. -/
def demoOpts : PdfOptions :=
  { margin := PdfMargin.none, orientation := PdfOrientation.portrait }

/-- Concrete rasterization oracle: the file named `bad` fails to load, every
other file decodes as a 4:3 image. -/
def demoRaster (f : JsFile) : Option (ℚ × ℚ) :=
  if f.name = ['b', 'a', 'd'] then none else some (4, 3)

/-- Concrete app state for the PDF-run witnesses: one good file, one bad. -/
def demoPdfState : AppState :=
  { files := [mkItem "p1" { name := ['o', 'k'] } "v1",
              mkItem "p2" { name := ['b', 'a', 'd'] } "v2"]
    pdfBlob := none }

/-- Conclusion of the frame property of `updateStatus` (claim C9): only the
matching item changes, and on it only `status` plus the patched keys. -/
def frameClaimSpec (files : List FileItem) (id : String) (st : ConversionStatus)
    (p : FilePatch) : Prop :=
  (updateStatus files id st p).length = files.length ∧
  (∀ (i : Nat) (f : FileItem), files[i]? = some f → ¬ f.id = id →
    (updateStatus files id st p)[i]? = some f) ∧
  (∀ (i : Nat) (f : FileItem), files[i]? = some f → f.id = id →
    ∃ g, (updateStatus files id st p)[i]? = some g ∧
      g.id = f.id ∧ g.file = f.file ∧ g.previewUrl = f.previewUrl ∧
      g.status = st ∧
      (p.convertedBlob = none → g.convertedBlob = f.convertedBlob) ∧
      (∀ b, p.convertedBlob = some b → g.convertedBlob = some b) ∧
      (p.error = none → g.error = f.error) ∧
      (∀ e, p.error = some e → g.error = some e))

/-- Conclusion of the amended presence invariant (claim C2): ingestion and
removal respect the invariant, the first-pass transitions of the JPEG
scheduler respect it, but the `Error -> Converting` retry transition keeps
the stale diagnostic, which then survives a later success. -/
def amendedFieldSpec (files : List FileItem) (idv urlv : String) (filev : JsFile)
    (f g : FileItem) (b : Blob) (e : String) : Prop :=
  statusFieldInvariant (mkItem idv filev urlv) ∧
  (∀ x ∈ (handleRemoveFile files idv).1, x ∈ files) ∧
  statusFieldInvariant (applyPatch f ConversionStatus.CONVERTING emptyPatch) ∧
  statusFieldInvariant
    (applyPatch f ConversionStatus.COMPLETED { convertedBlob := some b, error := none }) ∧
  statusFieldInvariant
    (applyPatch f ConversionStatus.ERROR { convertedBlob := none, error := some e }) ∧
  ((applyPatch g ConversionStatus.CONVERTING emptyPatch).status =
      ConversionStatus.CONVERTING ∧
    (applyPatch g ConversionStatus.CONVERTING emptyPatch).error = g.error ∧
    (applyPatch g ConversionStatus.CONVERTING emptyPatch).error.isSome) ∧
  ((applyPatch (applyPatch g ConversionStatus.CONVERTING emptyPatch)
      ConversionStatus.COMPLETED { convertedBlob := some b, error := none }).convertedBlob
        = some b ∧
    (applyPatch (applyPatch g ConversionStatus.CONVERTING emptyPatch)
      ConversionStatus.COMPLETED { convertedBlob := some b, error := none }).error
        = g.error)

/-- Conclusion of the removal claim (C8): a present id releases exactly the
one preview reference of that item and erases exactly that item; an absent
id is a silent no-op. -/
def removeClaimSpec (files : List FileItem) (id : String) (f : FileItem) : Prop :=
  (f ∈ files → f.id = id →
    handleRemoveFile files id = (files.erase f, [f.previewUrl])) ∧
  ((∀ g ∈ files, ¬ g.id = id) → handleRemoveFile files id = (files, []))

/-- Conclusion of the archive-naming claim (C4): extension replacement on a
well-formed `name.ext` source, the `photo.webp -> photo.jpg` instance, and
last-write-wins on colliding derived names. -/
def zipClaimSpec (pre suf n1 n2 : List Char) (b b1 b2 : Blob) : Prop :=
  zipEntryName (pre ++ '.' :: suf) = pre ++ ['.', 'j', 'p', 'g'] ∧
  zipAndDownload [("photo.webp".toList, b)] = [("photo.jpg".toList, b)] ∧
  zipAndDownload [(n1, b1), (n2, b2)] = [(zipEntryName n2, b2)]

/-- Conclusion of the document-run claim (C5): the run resets every item to
`Converting`, then processes pages strictly sequentially in item order,
signalling progress `0, 1, ...` in order, appending a new page before
content exactly for pages `i > 0`, and on a rasterization failure placing a
visible text marker naming the failing item while continuing the run. -/
def pdfRunSpec (opts : PdfOptions) (raster : JsFile → Option (ℚ × ℚ))
    (files : List FileItem) : Prop :=
  ((resetAllConverting files).map (fun f => f.status)
    = List.replicate files.length ConversionStatus.CONVERTING) ∧
  ((resetAllConverting files).map (fun f => f.id) = files.map (fun f => f.id)) ∧
  ((generatePdf opts raster (files.map (fun f => f.file))).filterMap progIdx
    = List.range (files.map (fun f => f.file)).length) ∧
  ((generatePdf opts raster (files.map (fun f => f.file))).count PdfEvent.addPage
    = (files.map (fun f => f.file)).length - 1) ∧
  (∀ (i : Nat) (f : JsFile), (files.map (fun f => f.file))[i]? = some f →
    List.Sublist
      (PdfEvent.progress i ::
        ((if 0 < i then [PdfEvent.addPage] else []) ++ pageBody opts raster f))
      (generatePdf opts raster (files.map (fun f => f.file)))) ∧
  (∀ (i : Nat) (f : JsFile), (files.map (fun f => f.file))[i]? = some f →
    raster f = none →
    PdfEvent.placeText (errText f.name) 10 10
      ∈ generatePdf opts raster (files.map (fun f => f.file)))

/-- Conclusion of the catastrophic-failure claim (C6): after a run whose
container fails, every item is `Error` with the generic diagnostic, the
`pdfBlob` slot is untouched (no artifact produced or delivered), and the
tracked ids are unchanged. -/
def pdfFailSpec (s : AppState) (k : Nat) : Prop :=
  (∀ g ∈ (startPdfConversionFail s k).files,
    g.status = ConversionStatus.ERROR ∧ g.error = some pdfFailMsg) ∧
  ((startPdfConversionFail s k).pdfBlob = s.pdfBlob) ∧
  ((startPdfConversionFail s k).files.map (fun f => f.id)
    = s.files.map (fun f => f.id))

/-- Conclusion of the status-vs-page-failure claim (C10): a run that
returns an artifact marks every item `Completed` (whatever the per-page
rasterization outcomes), and a page whose rasterization fails still gets
its progress signal before its in-document error marker, so the failure is
rendered in the document, never in the item's status. -/
def pdfSuccessSpec (opts : PdfOptions) (raster : JsFile → Option (ℚ × ℚ))
    (s : AppState) : Prop :=
  (∀ g ∈ (startPdfConversionOk opts raster s).files,
    g.status = ConversionStatus.COMPLETED) ∧
  ((startPdfConversionOk opts raster s).pdfBlob
    = some (generatePdf opts raster (s.files.map (fun f => f.file)))) ∧
  ((startPdfConversionOk opts raster s).files.map (fun f => f.id)
    = s.files.map (fun f => f.id)) ∧
  (∀ (i : Nat) (f : JsFile), (s.files.map (fun f => f.file))[i]? = some f →
    raster f = none →
    List.Sublist [PdfEvent.progress i, PdfEvent.placeText (errText f.name) 10 10]
      (generatePdf opts raster (s.files.map (fun f => f.file))))

/-- Conclusion of the batch-scheduler claim (C1): the run selects exactly
the idle/errored items in original order, partitions them into groups of at
most 3 (7 items giving sizes 3, 3, 1), marks each item `Converting` before
its dispatch, dispatches every item of a group before any of that group's
settles, and never dispatches an item of a later group before every item of
an earlier group has settled as `Completed` or `Error`. -/
def schedulerSpec (files : List FileItem) (out : FileItem → Bool)
    (σ : List FileItem → List FileItem) : Prop :=
  (∀ f : FileItem, f ∈ selectPending files ↔
    f ∈ files ∧
      (f.status = ConversionStatus.IDLE ∨ f.status = ConversionStatus.ERROR)) ∧
  (selectPending files).Sublist files ∧
  (batches3 (selectPending files)).flatten = selectPending files ∧
  (∀ g ∈ batches3 (selectPending files), g.length ≤ 3 ∧ g ≠ []) ∧
  ((selectPending files).length = 7 →
    (batches3 (selectPending files)).map List.length = [3, 3, 1]) ∧
  (∀ f : FileItem, outcomeStatus out f = ConversionStatus.COMPLETED ∨
    outcomeStatus out f = ConversionStatus.ERROR) ∧
  (∀ f ∈ selectPending files,
    List.Sublist [SchedEvent.mark f.id, SchedEvent.dispatch f.id]
      (startConversion out σ files)) ∧
  (∀ g ∈ batches3 (selectPending files), ∀ f ∈ g, ∀ f' ∈ g,
    List.Sublist
      [SchedEvent.dispatch f.id, SchedEvent.settle f'.id (outcomeStatus out f')]
      (startConversion out σ files)) ∧
  (∀ (k k' : Nat) (gk gk' : List FileItem), k < k' →
    (batches3 (selectPending files))[k]? = some gk →
    (batches3 (selectPending files))[k']? = some gk' →
    ∀ f ∈ gk, ∀ f' ∈ gk',
      List.Sublist
        [SchedEvent.settle f.id (outcomeStatus out f), SchedEvent.dispatch f'.id]
        (startConversion out σ files))

/-- Conclusion of the fit-inside-box claim (C3): the computed fit is
positive, aspect-preserving, within both content-box bounds, maximal among
aspect-preserving sizes in the box; the centring offset is
`margin + (content − fit) / 2`; and a 4:3 image in a 100×100 box fits as
100×75 with offset (0, 12.5). -/
def fitClaimSpec (w h cw ch : ℚ) : Prop :=
  0 < (fitDims w h cw ch).1 ∧ 0 < (fitDims w h cw ch).2 ∧
  (fitDims w h cw ch).1 ≤ cw ∧ (fitDims w h cw ch).2 ≤ ch ∧
  (fitDims w h cw ch).1 * h = (fitDims w h cw ch).2 * w ∧
  (∀ a b : ℚ, 0 < a → 0 < b → a * h = b * w → a ≤ cw → b ≤ ch →
    a ≤ (fitDims w h cw ch).1 ∧ b ≤ (fitDims w h cw ch).2) ∧
  fitDims 4 3 100 100 = (100, 75) ∧
  placeOffset 0 100 100 = 0 ∧ placeOffset 0 100 75 = 25 / 2 ∧
  (∀ m c d : ℚ, placeOffset m c d = m + (c - d) / 2)

/-- C7: the page dimensions are the fixed A4 reference size, with width and
height as given for portrait and swapped for landscape; the content box
subtracts `2 × marginSize` from both page dimensions; and margin `none`
yields a content box equal to the full page. -/
theorem page_geometry_c7 :
    (pageWidth PdfOrientation.portrait = a4Width ∧
      pageHeight PdfOrientation.portrait = a4Height) ∧
    (pageWidth PdfOrientation.landscape = a4Height ∧
      pageHeight PdfOrientation.landscape = a4Width) ∧
    (∀ opts : PdfOptions,
      contentWidth opts = pageWidth opts.orientation - 2 * MARGIN_SIZES opts.margin ∧
      contentHeight opts = pageHeight opts.orientation - 2 * MARGIN_SIZES opts.margin) ∧
    (∀ o : PdfOrientation,
      contentWidth { margin := PdfMargin.none, orientation := o } = pageWidth o ∧
      contentHeight { margin := PdfMargin.none, orientation := o } = pageHeight o) := by
  refine ⟨⟨rfl, rfl⟩, ⟨rfl, rfl⟩, ?_, ?_⟩
  · intro opts
    constructor <;> simp [contentWidth, contentHeight] <;> ring
  · intro o
    constructor <;> simp [contentWidth, contentHeight, MARGIN_SIZES]

/-- C9: `updateStatus(id, status, patch)` modifies at most the item whose id
matches; all other items are left exactly unchanged, and on the matched item
every field not named in the patch (id, source file, preview reference, and
any previously present output/error) keeps its prior value. -/
theorem updateStatus_frame_c9 (files : List FileItem) (id : String)
    (st : ConversionStatus) (p : FilePatch) : frameClaimSpec files id st p := by
  refine ⟨by simp [updateStatus], ?_, ?_⟩
  · intro i f hf hne
    simp [updateStatus, List.getElem?_map, hf, hne]
  · intro i f hf heq
    refine ⟨applyPatch f st p, ?_, rfl, rfl, rfl, rfl, ?_, ?_, ?_, ?_⟩
    · simp [updateStatus, List.getElem?_map, hf, heq]
    · intro h; simp [applyPatch, h]
    · intro b h; simp [applyPatch, h]
    · intro h; simp [applyPatch, h]
    · intro e h; simp [applyPatch, h]

/-- Witness for C9 at a concrete two-item collection. -/
theorem updateStatus_frame_c9_spot :
    frameClaimSpec demoPair "d2" ConversionStatus.COMPLETED
      { convertedBlob := some 7, error := none } :=
  updateStatus_frame_c9 demoPair "d2" ConversionStatus.COMPLETED
    { convertedBlob := some 7, error := none }

/-- Counterexample to C2 as stated: the retry dispatch
`updateStatus(item.id, CONVERTING)` on an errored item (exactly the call
`startJpegConversion` makes) leaves the stale `error` present while the
status is `Converting`, so the presence invariant fails after this registry
mutation. -/
theorem c2_retry_counterexample :
    updateStatus [retryItem] "r1" ConversionStatus.CONVERTING emptyPatch
      = [{ retryItem with status := ConversionStatus.CONVERTING }] ∧
    ¬ (∀ f ∈ updateStatus [retryItem] "r1" ConversionStatus.CONVERTING emptyPatch,
        statusFieldInvariant f) := by
  constructor
  · decide
  · intro h
    have hmem : ({ retryItem with status := ConversionStatus.CONVERTING } : FileItem)
        ∈ updateStatus [retryItem] "r1" ConversionStatus.CONVERTING emptyPatch := by
      decide
    have hinv := h _ hmem
    have := hinv.2.2 (Or.inr rfl)
    simp [retryItem] at this

/-- C2 amended: ingestion creates invariant-satisfying items, removal keeps
only existing items, and the first-pass transitions (fresh item marked
`Converting`, success with output, failure with diagnostic) respect the
invariant; however the `Error -> Converting` retry merge does not clear the
stale `error`, which stays present while `Converting` and survives alongside
the output after a subsequent success. -/
theorem c2_amended (files : List FileItem) (idv urlv : String) (filev : JsFile)
    (f g : FileItem) (b : Blob) (e : String)
    (hb : f.convertedBlob = none) (he : f.error = none) (hg : g.error.isSome) :
    amendedFieldSpec files idv urlv filev f g b e := by
  refine ⟨?_, ?_, ?_, ?_, ?_, ?_, ?_⟩
  · simp [statusFieldInvariant, mkItem]
  · intro x hx
    exact List.mem_of_mem_filter hx
  · simp [statusFieldInvariant, applyPatch, emptyPatch, hb, he]
  · simp [statusFieldInvariant, applyPatch, hb, he]
  · simp [statusFieldInvariant, applyPatch, hb, he]
  · exact ⟨rfl, by simp [applyPatch, emptyPatch], by simp [applyPatch, emptyPatch, hg]⟩
  · exact ⟨by simp [applyPatch], by simp [applyPatch, emptyPatch]⟩

/-- Witness for the amended C2 at concrete items. -/
theorem c2_amended_spot :
    amendedFieldSpec demoPair "d1" "wu" { name := ['w'] }
      (mkItem "w1" { name := ['w'] } "wu") retryItem 5 "boom" :=
  c2_amended demoPair "d1" "wu" { name := ['w'] }
    (mkItem "w1" { name := ['w'] } "wu") retryItem 5 "boom" rfl rfl (by decide)

theorem handleRemove_present : ∀ (files : List FileItem) (id : String) (f : FileItem),
    (files.map (fun x => x.id)).Nodup → f ∈ files → f.id = id →
    handleRemoveFile files id = (files.erase f, [f.previewUrl]) := by
  intro files
  induction files with
  | nil => intro id f _ h _; cases h
  | cons a rest ih =>
    intro id f hnd hmem hid
    rw [List.map_cons, List.nodup_cons] at hnd
    obtain ⟨ha, hnd'⟩ := hnd
    by_cases hcase : a.id = id
    · have hfa : f = a := by
        rcases List.mem_cons.mp hmem with h | h
        · exact h
        · exfalso
          apply ha
          rw [hcase, ← hid]
          exact List.mem_map_of_mem (fun x => x.id) h
      subst hfa
      have hfilter : rest.filter (fun g => !(g.id == id)) = rest := by
        refine List.filter_eq_self.mpr (fun g hg => ?_)
        have hgid : ¬ g.id = id := by
          intro h
          apply ha
          rw [hcase, ← h]
          exact List.mem_map_of_mem (fun x => x.id) hg
        simp [hgid]
      simp [handleRemoveFile, hcase, hfilter, List.erase_cons_head,
        List.find?_cons, List.filter_cons]
    · have hfm : f ∈ rest := by
        rcases List.mem_cons.mp hmem with h | h
        · exact absurd (h ▸ hid) hcase
        · exact h
      have hne : ¬ f = a := fun h => hcase (h ▸ hid)
      have hprev := ih id f hnd' hfm hid
      have h1 : (handleRemoveFile rest id).1 = rest.erase f := by rw [hprev]
      have h2 : (handleRemoveFile rest id).2 = [f.previewUrl] := by rw [hprev]
      have hfind : List.find? (fun g => g.id == id) (a :: rest)
          = List.find? (fun g => g.id == id) rest := by
        simp [List.find?_cons, hcase]
      have hfil : List.filter (fun g => !(g.id == id)) (a :: rest)
          = a :: List.filter (fun g => !(g.id == id)) rest := by
        simp [List.filter_cons, hcase]
      have herase : (a :: rest).erase f = a :: rest.erase f := by
        rw [List.erase_cons_tail]
        simp only [beq_iff_eq]
        exact fun h => hne h.symm
      simp only [handleRemoveFile] at h1 h2 ⊢
      rw [hfil, hfind, h1, h2, herase]

theorem handleRemove_absent (files : List FileItem) (id : String)
    (h : ∀ g ∈ files, ¬ g.id = id) : handleRemoveFile files id = (files, []) := by
  simp only [handleRemoveFile]
  rw [List.filter_eq_self.mpr (fun g hg => by simp [h g hg]),
    List.find?_eq_none.mpr (fun g hg => by simp [h g hg])]

/-- C8: for an id present in the collection, `handleRemoveFile` releases
exactly the one preview reference created for that item and removes exactly
that item, leaving every other item (and its reference) untouched; for an
absent id it is a silent no-op. -/
theorem handleRemove_c8 (files : List FileItem) (id : String) (f : FileItem)
    (hnd : (files.map (fun x => x.id)).Nodup) : removeClaimSpec files id f :=
  ⟨fun hm hi => handleRemove_present files id f hnd hm hi,
   handleRemove_absent files id⟩

/-- Witness for C8 at a concrete two-item collection. -/
theorem handleRemove_c8_spot :
    removeClaimSpec demoPair "d1" (mkItem "d1" { name := "x.webp".toList } "url1") :=
  handleRemove_c8 demoPair "d1" (mkItem "d1" { name := "x.webp".toList } "url1")
    (by decide)

theorem takeWhile_all_append (p : Char → Bool) :
    ∀ (l1 : List Char) (c : Char) (l2 : List Char),
    (∀ x ∈ l1, p x = true) → p c = false →
    (l1 ++ c :: l2).takeWhile p = l1 ∧ (l1 ++ c :: l2).dropWhile p = c :: l2 := by
  intro l1
  induction l1 with
  | nil =>
    intro c l2 _ hc
    constructor <;> simp [List.takeWhile_cons, List.dropWhile_cons, hc]
  | cons a t ih =>
    intro c l2 hall hc
    have ha := hall a (by simp)
    obtain ⟨h1, h2⟩ := ih c l2 (fun x hx => hall x (by simp [hx])) hc
    constructor <;>
      simp [List.takeWhile_cons, List.dropWhile_cons, ha, h1, h2]

theorem replaceExt_strip (pre suf : List Char) (hs : suf ≠ [])
    (hall : ∀ c ∈ suf, extChar c = true) :
    replaceExtMatch (pre ++ '.' :: suf) = pre := by
  have hrev : (pre ++ '.' :: suf).reverse = suf.reverse ++ '.' :: pre.reverse := by
    simp [List.reverse_append]
  have hdot : extChar '.' = false := by decide
  have hallrev : ∀ c ∈ suf.reverse, extChar c = true :=
    fun c hc => hall c (List.mem_reverse.mp hc)
  obtain ⟨ht, hd⟩ :=
    takeWhile_all_append extChar suf.reverse '.' pre.reverse hallrev hdot
  have hne : suf.reverse.isEmpty = false := by
    cases hsr : suf.reverse with
    | nil => exact absurd (by simpa using congrArg List.reverse hsr) hs
    | cons x xs => rfl
  rw [replaceExtMatch.eq_def, hrev, ht, hd]
  simp [hne]

theorem zipAndDownload_singleton (n : List Char) (b : Blob) :
    zipAndDownload [(n, b)] = [(zipEntryName n, b)] := by
  simp [zipAndDownload, zipFileAdd]

/-- C4: the archive entry name strips the source extension and appends
`.jpg` (`photo.webp` becomes `photo.jpg`, replaced not appended), and
colliding derived names are not deduplicated: the last write for an exact
name key wins. -/
theorem zip_naming_c4 (pre suf n1 n2 : List Char) (b b1 b2 : Blob)
    (hs : suf ≠ []) (hall : ∀ c ∈ suf, extChar c = true)
    (hcol : zipEntryName n1 = zipEntryName n2) :
    zipClaimSpec pre suf n1 n2 b b1 b2 := by
  refine ⟨?_, ?_, ?_⟩
  · rw [zipEntryName, replaceExt_strip pre suf hs hall]
  · rw [zipAndDownload_singleton,
      show zipEntryName "photo.webp".toList = "photo.jpg".toList from by decide]
  · simp [zipAndDownload, zipFileAdd, hcol]

/-- Witness for C4 at `photo.webp` and the colliding pair `a.webp`/`a.png`. -/
theorem zip_naming_c4_spot :
    zipClaimSpec "photo".toList "webp".toList "a.webp".toList "a.png".toList 1 2 3 :=
  zip_naming_c4 "photo".toList "webp".toList "a.webp".toList "a.png".toList 1 2 3
    (by decide) (by decide) (by decide)

/-- C3: the fit computation preserves aspect ratio, never exceeds either
content-box bound, is maximal among aspect-preserving sizes within the box,
the placement offset is `margin + (content − fit) / 2` per axis, and a 4:3
image in a 100×100 content box fits as 100×75 with offset (0, 12.5). -/
theorem fit_c3 (w h cw ch : ℚ) (hw : 0 < w) (hh : 0 < h)
    (hcw : 0 < cw) (hch : 0 < ch) : fitClaimSpec w h cw ch := by
  have hh0 : h ≠ 0 := ne_of_gt hh
  have hw0 : w ≠ 0 := ne_of_gt hw
  have hr : 0 < w / h := div_pos hw hh
  have hr0 : w / h ≠ 0 := ne_of_gt hr
  have hconc : fitDims (4 : ℚ) 3 100 100 = (100, 75) := by
    norm_num [fitDims]
  have hoff1 : placeOffset (0 : ℚ) 100 100 = 0 := by norm_num [placeOffset]
  have hoff2 : placeOffset (0 : ℚ) 100 75 = 25 / 2 := by norm_num [placeOffset]
  have hoffg : ∀ m c d : ℚ, placeOffset m c d = m + (c - d) / 2 :=
    fun m c d => rfl
  unfold fitClaimSpec
  by_cases hc : cw / (w / h) > ch
  · have hfit : fitDims w h cw ch = (ch * (w / h), ch) := by
      simp [fitDims, if_pos hc]
    rw [hfit]
    refine ⟨mul_pos hch hr, hch, ((lt_div_iff₀ hr).mp hc).le, le_refl ch,
      ?_, ?_, hconc, hoff1, hoff2, hoffg⟩
    · field_simp
    · intro a b ha hb hab hacw hbch
      refine ⟨?_, hbch⟩
      have hba : a = b * (w / h) := by
        field_simp
        linarith [hab]
      rw [hba]
      exact mul_le_mul_of_nonneg_right hbch hr.le
  · have hfit : fitDims w h cw ch = (cw, cw / (w / h)) := by
      simp [fitDims, if_neg hc]
    rw [hfit]
    refine ⟨hcw, div_pos hcw hr, le_refl cw, not_lt.mp hc,
      ?_, ?_, hconc, hoff1, hoff2, hoffg⟩
    · field_simp
    · intro a b ha hb hab hacw hbch
      refine ⟨hacw, ?_⟩
      have hba : b = a / (w / h) := by
        field_simp
        linarith [hab]
      rw [hba]
      exact (div_le_div_iff_of_pos_right hr).mpr hacw

/-- Witness for C3 at the 4:3 image in the 100×100 content box. -/
theorem fit_c3_spot : fitClaimSpec 4 3 100 100 :=
  fit_c3 4 3 100 100 (by norm_num) (by norm_num) (by norm_num) (by norm_num)

theorem batches3_flatten {α : Type} : ∀ l : List α, (batches3 l).flatten = l
  | [] => rfl
  | [a] => rfl
  | [a, b] => rfl
  | a :: b :: c :: rest => by
    simp [batches3, batches3_flatten rest]

theorem batches3_bounds {α : Type} :
    ∀ l : List α, ∀ g ∈ batches3 l, g.length ≤ 3 ∧ g ≠ []
  | [] => by simp [batches3]
  | [a] => by simp [batches3]
  | [a, b] => by simp [batches3]
  | a :: b :: c :: rest => by
    intro g hg
    simp only [batches3] at hg
    rcases List.mem_cons.mp hg with rfl | hg'
    · simp
    · exact batches3_bounds rest g hg'

theorem batches3_seven {α : Type} :
    ∀ l : List α, l.length = 7 → (batches3 l).map List.length = [3, 3, 1]
  | [], h => by simp at h
  | [a], h => by simp at h
  | [a, b], h => by simp at h
  | [a, b, c], h => by simp at h
  | [a, b, c, d], h => by simp at h
  | [a, b, c, d, e], h => by simp at h
  | [a, b, c, d, e, f], h => by simp at h
  | [a, b, c, d, e, f, g], _ => rfl
  | a :: b :: c :: d :: e :: f :: g :: x :: t, h => by
    simp at h

theorem selectPending_mem (files : List FileItem) (f : FileItem) :
    f ∈ selectPending files ↔ f ∈ files ∧
      (f.status = ConversionStatus.IDLE ∨ f.status = ConversionStatus.ERROR) := by
  simp [selectPending, List.mem_filter]

theorem pair_sublist_flatMap (g : List FileItem) (f : FileItem) (hf : f ∈ g) :
    List.Sublist [SchedEvent.mark f.id, SchedEvent.dispatch f.id]
      (g.flatMap (fun x => [SchedEvent.mark x.id, SchedEvent.dispatch x.id])) := by
  induction g with
  | nil => cases hf
  | cons a rest ih =>
    rw [List.flatMap_cons]
    rcases List.mem_cons.mp hf with rfl | h
    · exact List.sublist_append_left _ _
    · exact (ih h).trans (List.sublist_append_right _ _)

theorem pair_sublist_blocks {β : Type} (L : List (List β)) (k k' : Nat)
    (hk : k < k') (bk bk' : List β) (h1 : L[k]? = some bk)
    (h2 : L[k']? = some bk') (a b : β) (ha : a ∈ bk) (hb : b ∈ bk') :
    List.Sublist [a, b] L.flatten := by
  have hmem1 : bk ∈ L.take (k + 1) := by
    have hx : (L.take (k + 1))[k]? = some bk := by
      rw [List.getElem?_take_of_lt (Nat.lt_succ_self k)]
      exact h1
    exact List.getElem?_mem hx
  have hmem2 : bk' ∈ L.drop (k + 1) := by
    have hx : (L.drop (k + 1))[k' - (k + 1)]? = some bk' := by
      rw [List.getElem?_drop]
      have he : k + 1 + (k' - (k + 1)) = k' := by omega
      rw [he]
      exact h2
    exact List.getElem?_mem hx
  have hs : List.Sublist ([a] ++ [b])
      ((L.take (k + 1)).flatten ++ (L.drop (k + 1)).flatten) :=
    List.Sublist.append
      (List.singleton_sublist.mpr (List.mem_flatten.mpr ⟨bk, hmem1, ha⟩))
      (List.singleton_sublist.mpr (List.mem_flatten.mpr ⟨bk', hmem2, hb⟩))
  have he : (L.take (k + 1)).flatten ++ (L.drop (k + 1)).flatten = L.flatten := by
    rw [← List.flatten_append, List.take_append_drop]
  rw [← he]
  exact hs

theorem groupTrace_sublist_run (out : FileItem → Bool)
    (σ : List FileItem → List FileItem) (files : List FileItem)
    (g : List FileItem) (hg : g ∈ batches3 (selectPending files)) :
    List.Sublist (groupTrace out σ g) (startConversion out σ files) := by
  unfold startConversion startJpegConversion
  rw [List.flatMap_def]
  exact List.sublist_flatten_of_mem (List.mem_map_of_mem _ hg)

/-- C1: the batch run selects exactly the idle/errored items, partitions
them in order into groups of at most three (7 pending items forming groups
of sizes 3, 3, 1), marks each item `Converting` before dispatching it,
dispatches a whole group before any of its settles, and dispatches nothing
from a later group before every item of an earlier group has settled as
`Completed` or `Error`. -/
theorem scheduler_c1 (files : List FileItem) (out : FileItem → Bool)
    (σ : List FileItem → List FileItem) (hσ : ∀ g, List.Perm (σ g) g) :
    schedulerSpec files out σ := by
  refine ⟨fun f => selectPending_mem files f, List.filter_sublist _,
    batches3_flatten _, batches3_bounds _, fun h7 => batches3_seven _ h7,
    ?_, ?_, ?_, ?_⟩
  · intro f
    unfold outcomeStatus
    by_cases h : out f <;> simp [h]
  · intro f hf
    rw [← batches3_flatten (selectPending files)] at hf
    obtain ⟨g, hg, hfg⟩ := List.mem_flatten.mp hf
    have hgrp : List.Sublist [SchedEvent.mark f.id, SchedEvent.dispatch f.id]
        (groupTrace out σ g) := by
      unfold groupTrace
      exact (pair_sublist_flatMap g f hfg).trans (List.sublist_append_left _ _)
    exact hgrp.trans (groupTrace_sublist_run out σ files g hg)
  · intro g hg f hf f' hf'
    have hset : f' ∈ σ g := (hσ g).mem_iff.mpr hf'
    have h1 : List.Sublist [SchedEvent.dispatch f.id]
        (g.flatMap (fun x => [SchedEvent.mark x.id, SchedEvent.dispatch x.id])) :=
      List.singleton_sublist.mpr (List.mem_flatMap.mpr ⟨f, hf, by simp⟩)
    have h2 : List.Sublist [SchedEvent.settle f'.id (outcomeStatus out f')]
        ((σ g).map (fun x => SchedEvent.settle x.id (outcomeStatus out x))) :=
      List.singleton_sublist.mpr (List.mem_map_of_mem _ hset)
    have hgrp : List.Sublist
        [SchedEvent.dispatch f.id, SchedEvent.settle f'.id (outcomeStatus out f')]
        (groupTrace out σ g) := by
      unfold groupTrace
      exact List.Sublist.append h1 h2
    exact hgrp.trans (groupTrace_sublist_run out σ files g hg)
  · intro k k' gk gk' hkk h1 h2 f hf f' hf'
    have hsettle : SchedEvent.settle f.id (outcomeStatus out f)
        ∈ groupTrace out σ gk := by
      unfold groupTrace
      exact List.mem_append_right _
        (List.mem_map_of_mem _ ((hσ gk).mem_iff.mpr hf))
    have hdispatch : SchedEvent.dispatch f'.id ∈ groupTrace out σ gk' := by
      unfold groupTrace
      exact List.mem_append_left _ (List.mem_flatMap.mpr ⟨f', hf', by simp⟩)
    have hrun : startConversion out σ files
        = ((batches3 (selectPending files)).map (groupTrace out σ)).flatten := by
      unfold startConversion startJpegConversion
      rw [List.flatMap_def]
    rw [hrun]
    refine pair_sublist_blocks _ k k' hkk (groupTrace out σ gk)
      (groupTrace out σ gk') ?_ ?_ _ _ hsettle hdispatch
    · rw [List.getElem?_map, h1]
      rfl
    · rw [List.getElem?_map, h2]
      rfl

/-- Witness for C1 at a concrete seven-item idle collection, with the
identity settle order and an all-success conversion oracle. -/
theorem scheduler_c1_spot :
    (∀ g : List FileItem, List.Perm (id g) g) ∧
    schedulerSpec demoFiles7 (fun _ => true) id :=
  ⟨fun g => List.Perm.refl g,
   scheduler_c1 demoFiles7 (fun _ => true) id (fun g => List.Perm.refl g)⟩

theorem pageBody_filterMap (opts : PdfOptions) (raster : JsFile → Option (ℚ × ℚ))
    (f : JsFile) : (pageBody opts raster f).filterMap progIdx = [] := by
  unfold pageBody
  cases raster f with
  | none => simp [progIdx]
  | some wh => simp [progIdx]

theorem pageBody_count (opts : PdfOptions) (raster : JsFile → Option (ℚ × ℚ))
    (f : JsFile) : (pageBody opts raster f).count PdfEvent.addPage = 0 := by
  unfold pageBody
  cases raster f with
  | none => simp [List.count_cons]
  | some wh => simp [List.count_cons]

theorem pdfLoop_filterMap (opts : PdfOptions) (raster : JsFile → Option (ℚ × ℚ)) :
    ∀ (l : List JsFile) (i : Nat),
    (generatePdfLoop opts raster i l).filterMap progIdx = List.range' i l.length := by
  intro l
  induction l with
  | nil => intro i; simp [generatePdfLoop]
  | cons f rest ih =>
    intro i
    rw [generatePdfLoop, List.length_cons, List.range'_succ i rest.length 1]
    by_cases h : 0 < i <;>
      simp [List.filterMap_append, List.filterMap_cons, progIdx, h,
        pageBody_filterMap, ih (i + 1)]

theorem pdfLoop_count_pos (opts : PdfOptions) (raster : JsFile → Option (ℚ × ℚ)) :
    ∀ (l : List JsFile) (i : Nat), 0 < i →
    (generatePdfLoop opts raster i l).count PdfEvent.addPage = l.length := by
  intro l
  induction l with
  | nil => intro i _; simp [generatePdfLoop]
  | cons f rest ih =>
    intro i hi
    rw [generatePdfLoop]
    simp [List.count_append, List.count_cons, hi, pageBody_count,
      ih (i + 1) (Nat.succ_pos i)]

theorem pdfLoop_count_zero (opts : PdfOptions) (raster : JsFile → Option (ℚ × ℚ)) :
    ∀ l : List JsFile,
    (generatePdfLoop opts raster 0 l).count PdfEvent.addPage = l.length - 1 := by
  intro l
  cases l with
  | nil => simp [generatePdfLoop]
  | cons f rest =>
    rw [generatePdfLoop]
    simp [List.count_append, List.count_cons, pageBody_count,
      pdfLoop_count_pos opts raster rest 1 Nat.one_pos]

theorem pdfLoop_block_sublist (opts : PdfOptions) (raster : JsFile → Option (ℚ × ℚ)) :
    ∀ (l : List JsFile) (j n : Nat) (f : JsFile), l[n]? = some f →
    List.Sublist
      (PdfEvent.progress (j + n) ::
        ((if 0 < j + n then [PdfEvent.addPage] else []) ++ pageBody opts raster f))
      (generatePdfLoop opts raster j l) := by
  intro l
  induction l with
  | nil => intro j n f h; simp at h
  | cons a rest ih =>
    intro j n f h
    cases n with
    | zero =>
      have ha : a = f := by simpa using h
      subst ha
      rw [Nat.add_zero, generatePdfLoop]
      exact List.sublist_append_left _ _
    | succ m =>
      have h' : rest[m]? = some f := by simpa using h
      have hsub := ih (j + 1) m f h'
      rw [generatePdfLoop]
      have harith : j + 1 + m = j + (m + 1) := by omega
      rw [harith] at hsub
      exact hsub.trans (List.sublist_append_right _ _)

theorem resetAll_statuses (files : List FileItem) :
    (resetAllConverting files).map (fun f => f.status)
      = List.replicate files.length ConversionStatus.CONVERTING := by
  induction files with
  | nil => rfl
  | cons a rest ih =>
    simp only [resetAllConverting, List.map_cons, List.length_cons,
      List.replicate_succ] at ih ⊢
    rw [ih]

theorem resetAll_ids (files : List FileItem) :
    (resetAllConverting files).map (fun f => f.id) = files.map (fun f => f.id) := by
  rw [resetAllConverting, List.map_map]
  rfl

theorem updateStatus_ids (files : List FileItem) (id : String)
    (st : ConversionStatus) (p : FilePatch) :
    (updateStatus files id st p).map (fun f => f.id) = files.map (fun f => f.id) := by
  rw [updateStatus, List.map_map]
  refine List.map_congr_left (fun f _ => ?_)
  by_cases h : f.id = id <;> simp [h, applyPatch]

theorem markAllCompleted_ids :
    ∀ (todo s : List FileItem),
    (markAllCompleted todo s).map (fun f => f.id) = s.map (fun f => f.id) := by
  intro todo
  induction todo with
  | nil => intro s; rfl
  | cons a rest ih =>
    intro s
    unfold markAllCompleted at ih ⊢
    rw [List.foldl_cons, ih, updateStatus_ids]

theorem markAll_status :
    ∀ (todo acc : List FileItem),
    (∀ g ∈ acc, g.status = ConversionStatus.COMPLETED
      ∨ g.id ∈ todo.map (fun x => x.id)) →
    ∀ g ∈ markAllCompleted todo acc, g.status = ConversionStatus.COMPLETED := by
  intro todo
  induction todo with
  | nil =>
    intro acc h g hg
    unfold markAllCompleted at hg
    rcases h g (by simpa using hg) with hC | hmem
    · exact hC
    · simp at hmem
  | cons a rest ih =>
    intro acc h g hg
    unfold markAllCompleted at hg
    rw [List.foldl_cons] at hg
    refine ih (updateStatus acc a.id ConversionStatus.COMPLETED emptyPatch) ?_ g hg
    intro x hx
    unfold updateStatus at hx
    obtain ⟨y, hy, rfl⟩ := List.mem_map.mp hx
    by_cases hc : y.id = a.id
    · left
      simp [hc, applyPatch]
    · rcases h y hy with hC | hmem
      · left
        simpa [hc] using hC
      · right
        simp only [List.map_cons, List.mem_cons] at hmem
        rcases hmem with hmem | hmem
        · exact absurd hmem (by simp [hc])
        · simpa [hc] using hmem

/-- C5: the document run resets every item's status to `Converting`, then
processes pages strictly sequentially in item order, signalling progress
`0..n−1` in order, appending a new page before placing content exactly when
`i > 0`, and on a rasterization failure placing a visible error marker
naming the failing item on that page while continuing with the next item. -/
theorem pdf_run_c5 (opts : PdfOptions) (raster : JsFile → Option (ℚ × ℚ))
    (files : List FileItem) : pdfRunSpec opts raster files := by
  refine ⟨resetAll_statuses files, resetAll_ids files, ?_, ?_, ?_, ?_⟩
  · rw [generatePdf, pdfLoop_filterMap, List.range_eq_range']
  · exact pdfLoop_count_zero opts raster _
  · intro i f h
    have hb := pdfLoop_block_sublist opts raster (files.map (fun f => f.file)) 0 i f h
    simpa using hb
  · intro i f h hnone
    have hb := pdfLoop_block_sublist opts raster (files.map (fun f => f.file)) 0 i f h
    have hmem : PdfEvent.placeText (errText f.name) 10 10
        ∈ (PdfEvent.progress (0 + i) ::
          ((if 0 < 0 + i then [PdfEvent.addPage] else []) ++ pageBody opts raster f)) := by
      simp [pageBody, hnone]
    exact hb.subset hmem

/-- Witness for C5 at a concrete two-item state whose second file fails to
rasterize. -/
theorem pdf_run_c5_spot : pdfRunSpec demoOpts demoRaster demoPdfState.files :=
  pdf_run_c5 demoOpts demoRaster demoPdfState.files

/-- C6: when the document container fails, every item in the collection
transitions to `Error` with the generic diagnostic, the id set is unchanged
and `pdfBlob` is untouched, so no document artifact is produced or delivered
for that run. -/
theorem pdf_failure_c6 (s : AppState) (k : Nat) : pdfFailSpec s k := by
  refine ⟨?_, rfl, ?_⟩
  · intro g hg
    simp only [startPdfConversionFail] at hg
    obtain ⟨x, _, rfl⟩ := List.mem_map.mp hg
    exact ⟨rfl, rfl⟩
  · simp only [startPdfConversionFail]
    rw [List.map_map]
    have : (markAllCompleted (s.files.take k) (resetAllConverting s.files)).map
        (fun f => f.id) = s.files.map (fun f => f.id) := by
      rw [markAllCompleted_ids, resetAll_ids]
    rw [← this]
    rfl

/-- Witness for C6 at a concrete state that had already progressed one
item when the container failed. -/
theorem pdf_failure_c6_spot : pdfFailSpec demoPdfState 1 :=
  pdf_failure_c6 demoPdfState 1

/-- C10: a document run that returns an artifact marks every item
`Completed` — each progress callback fires (and completes its item) before
that page's body is placed, and an item whose page fails rasterization still
ends the run `Completed`: per-page failure appears only as the in-document
marker, never in item status. -/
theorem pdf_success_c10 (opts : PdfOptions) (raster : JsFile → Option (ℚ × ℚ))
    (s : AppState) : pdfSuccessSpec opts raster s := by
  refine ⟨?_, rfl, ?_, ?_⟩
  · intro g hg
    simp only [startPdfConversionOk] at hg
    refine markAll_status s.files (resetAllConverting s.files) ?_ g hg
    intro x hx
    right
    simp only [resetAllConverting] at hx
    obtain ⟨y, hy, rfl⟩ := List.mem_map.mp hx
    exact List.mem_map.mpr ⟨y, hy, rfl⟩
  · simp only [startPdfConversionOk]
    rw [markAllCompleted_ids, resetAll_ids]
  · intro i f h hnone
    have hb := pdfLoop_block_sublist opts raster (s.files.map (fun f => f.file)) 0 i f h
    have hpair : List.Sublist
        [PdfEvent.progress i, PdfEvent.placeText (errText f.name) 10 10]
        (PdfEvent.progress (0 + i) ::
          ((if 0 < 0 + i then [PdfEvent.addPage] else []) ++ pageBody opts raster f)) := by
      rw [Nat.zero_add]
      refine List.Sublist.cons₂ _ ?_
      have hbody : pageBody opts raster f = [PdfEvent.placeText (errText f.name) 10 10] := by
        simp [pageBody, hnone]
      rw [← hbody]
      exact List.sublist_append_right _ _
    exact hpair.trans hb

/-- Witness for C10 at a concrete state whose second file fails to
rasterize. -/
theorem pdf_success_c10_spot : pdfSuccessSpec demoOpts demoRaster demoPdfState :=
  pdf_success_c10 demoOpts demoRaster demoPdfState

end WebpToJpeg
